import Mathlib

/-!
# rvalidator: `Validate` and `getErrorMessage`

A shallow embedding of `src/validator.go`.

The Go file consists of two functions.  `Validate` checks that its argument
is a struct, hands it to the validation engine
(`github.com/go-playground/validator/v10`), and turns every reported
violation into a display string with `getErrorMessage`, which looks the
failing field up by name on the struct's type and reads its `errormessage`
tag.

Modelling choices:

* a Go `interface{}` value is `Option Value`: `none` is the nil interface, and
  `some ⟨typ, data⟩` is a dynamic type together with its data, like the
  runtime's (type, data) pair;
* the part of `reflect` the code uses (`Kind`, `Type`, `FieldByName`,
  `StructTag.Get`) is written out on that representation;
* a panic, of `reflect` or of the validation engine, is the `error` side of
  `Except Panic`; the code has no `recover`, so a panic ends the call;
* the validation engine is an external library: every function that calls it
  takes it as the argument `engine`, which for the validated value either
  gives the `error` that `(*Validate).Struct` returns or panics;
* a Go `[]string` is a `List String`, the nil slice being `[]`: the code only
  ever returns a nil slice or the result of appending at least one element
  to it, so no empty non-nil slice arises.
-/

namespace Rvalidator

/-! ## The `reflect` view of types and values -/

/-- The kinds of `reflect.Kind`, in the order of the Go declaration. -/
inductive Kind where
  | Invalid | Bool
  | Int | Int8 | Int16 | Int32 | Int64
  | Uint | Uint8 | Uint16 | Uint32 | Uint64 | Uintptr
  | Float32 | Float64 | Complex64 | Complex128
  | Array | Chan | Func | Interface | Map | Pointer | Slice | String | Struct
  | UnsafePointer
  deriving DecidableEq, Repr

/-- The kinds whose types have no component type. -/
inductive ScalarKind where
  | Bool
  | Int | Int8 | Int16 | Int32 | Int64
  | Uint | Uint8 | Uint16 | Uint32 | Uint64 | Uintptr
  | Float32 | Float64 | Complex64 | Complex128
  | String | UnsafePointer
  deriving DecidableEq, Repr

/-- The `reflect.Kind` of a scalar kind. -/
def ScalarKind.toKind : ScalarKind → Kind
  | .Bool => .Bool
  | .Int => .Int | .Int8 => .Int8 | .Int16 => .Int16 | .Int32 => .Int32 | .Int64 => .Int64
  | .Uint => .Uint | .Uint8 => .Uint8 | .Uint16 => .Uint16 | .Uint32 => .Uint32
  | .Uint64 => .Uint64 | .Uintptr => .Uintptr
  | .Float32 => .Float32 | .Float64 => .Float64
  | .Complex64 => .Complex64 | .Complex128 => .Complex128
  | .String => .String | .UnsafePointer => .UnsafePointer

/-- A struct tag in the conventional format, as the sequence of its
`key:"value"` pairs in the order they are written. -/
abbrev StructTag := List (String × String)

/-- The method `StructTag.Get`: the value of the first pair with the given key,
and the empty string when there is none. -/
def StructTag.Get (tag : StructTag) (key : String) : String :=
  match tag.find? (fun kv => kv.1 == key) with
  | some kv => kv.2
  | none => ""

mutual
/-- A Go type as `reflect.Type` describes it. -/
inductive GoType where
  | scalar (k : ScalarKind)
  | array (elem : GoType) (len : Nat)
  | chan (elem : GoType)
  | func
  | interface
  | map (key elem : GoType)
  | pointer (elem : GoType)
  | slice (elem : GoType)
  | struct (name : String) (fields : List StructField)
/-- The fields of `reflect.StructField` that the code reads. -/
inductive StructField where
  | mk (Name : String) (Typ : GoType) (Tag : StructTag) (Anonymous : Bool)
end

/-- The method `Type.Kind`. -/
def GoType.Kind : GoType → Kind
  | .scalar k => k.toKind
  | .array _ _ => .Array
  | .chan _ => .Chan
  | .func => .Func
  | .interface => .Interface
  | .map _ _ => .Map
  | .pointer _ => .Pointer
  | .slice _ => .Slice
  | .struct _ _ => .Struct

/-- The name of a struct field. -/
def StructField.Name : StructField → String
  | .mk n _ _ _ => n

/-- The type of a struct field. -/
def StructField.Typ : StructField → GoType
  | .mk _ t _ _ => t

/-- The tag of a struct field. -/
def StructField.Tag : StructField → StructTag
  | .mk _ _ t _ => t

/-- Whether a struct field is embedded. -/
def StructField.Anonymous : StructField → Bool
  | .mk _ _ _ a => a

mutual
/-- How deeply struct types are nested inside a type. -/
def GoType.depth : GoType → Nat
  | .scalar _ => 0
  | .array e _ => e.depth + 1
  | .chan e => e.depth + 1
  | .func => 0
  | .interface => 0
  | .map k e => max k.depth e.depth + 1
  | .pointer e => e.depth + 1
  | .slice e => e.depth + 1
  | .struct _ fs => depthFields fs + 1
/-- The largest nesting depth among the types of a field list. -/
def depthFields : List StructField → Nat
  | [] => 0
  | f :: fs => max (StructField.depth f) (depthFields fs)
/-- The nesting depth of the type of a field. -/
def StructField.depth : StructField → Nat
  | .mk _ t _ _ => t.depth
end

/-- The data behind a value: a machine word (booleans and numbers), a string,
a nil reference, the target of a non-nil pointer, or the components of a
struct, array or slice in order. -/
inductive Data where
  | word (n : Int)
  | text (s : String)
  | nil
  | ref (target : Data)
  | seq (items : List Data)

/-- A value together with its dynamic type. -/
structure Value where
  typ : GoType
  data : Data

/-- A Go value of type `interface{}`; `none` is the nil interface. -/
abbrev Any := Option Value

/-- A `reflect.Value`; `none` is the zero Value. -/
abbrev ReflectValue := Option Value

/-- The panics the code can run into: the two of package `reflect`, and a
panic raised inside the validation engine. -/
inductive Panic where
  /-- The method `Value.Type` was called on the zero Value. -/
  | typeOnZeroValue
  /-- The method `Type.FieldByName` was called on a type that is not a struct. -/
  | fieldByNameOfNonStruct
  /-- The call `valid.Struct(s)` panicked with the given message. -/
  | engine (msg : String)
  deriving DecidableEq, Repr

/-- The function `reflect.ValueOf`: the zero Value for a nil interface, and the
concrete value stored in the interface otherwise. -/
def ValueOf (s : Any) : ReflectValue := s

/-- The method `Value.Kind`; the zero Value has kind `Invalid`. -/
def ReflectValue.Kind : ReflectValue → Kind
  | none => .Invalid
  | some v => v.typ.Kind

/-- The method `Value.Type`; it panics on the zero Value. -/
def ReflectValue.Typ : ReflectValue → Except Panic GoType
  | none => .error .typeOnZeroValue
  | some v => .ok v.typ

/-- The struct type whose fields an embedded field promotes: a field embedded
as `T` or `*T` with `T` a struct. -/
def StructField.embeddedStruct (f : StructField) : Option (List StructField) :=
  if f.Anonymous then
    match f.Typ with
    | .struct _ fs => some fs
    | .pointer (.struct _ fs) => some fs
    | _ => none
  else none

/-- One field of one struct of the current level of the breadth-first search of
`FieldByNameFunc`.  The state is the match found so far at this level and the
structs queued for the next level; `none` is the outcome "the name appears
more than once at this level", which ends the search without a field. -/
def scanField (name : String) (st : Option StructField × List (List StructField))
    (f : StructField) : Option (Option StructField × List (List StructField)) :=
  if f.Name == name then
    if st.1.isSome then none else some (some f, st.2)
  else if st.1.isSome then some st
  else
    match f.embeddedStruct with
    | none => some st
    | some fs => some (st.1, st.2 ++ [fs])

/-- One level of the breadth-first search: every field of every struct queued
for the level, in order. -/
def scanLevel (name : String) (current : List (List StructField)) :
    Option (Option StructField × List (List StructField)) :=
  current.foldlM (fun st fs => fs.foldlM (scanField name) st) (none, [])

/-- The loop of `FieldByNameFunc` over the levels of embedding; `fuel` bounds
the number of levels, and `fieldByName_fuel` shows that the bound `FieldByName`
passes is never reached. -/
def fieldByNameFunc (name : String) : Nat → List (List StructField) → Option StructField
  | 0, _ => none
  | fuel + 1, current =>
    if current.isEmpty then none
    else
      match scanLevel name current with
      | none => none
      | some (some f, _) => some f
      | some (none, next) => fieldByNameFunc name fuel next

/-- The largest nesting depth among the structs queued for a level. -/
def levelDepth (current : List (List StructField)) : Nat :=
  (current.map depthFields).foldr max 0

/-- The method `Type.FieldByName`.  It panics on a type that is not a struct.
On a struct it first looks for a field of that name declared in the struct
itself, and searches the embedded structs level by level only when there is
none and the struct has embedded fields.  The empty name is never found. -/
def GoType.FieldByName (t : GoType) (name : String) : Except Panic (Option StructField) :=
  match t with
  | .struct _ fields =>
    if name = "" then .ok none
    else
      match fields.find? (fun tf => tf.Name == name) with
      | some f => .ok (some f)
      | none =>
        if fields.any (fun tf => tf.Anonymous) then
          .ok (fieldByNameFunc name (t.depth + 1) [fields])
        else .ok none
  | _ => .error .fieldByNameOfNonStruct

/-! ## The validation engine seen from the adapter -/

/-- The methods of the interface `validator.FieldError`, as the values they
return for one reported violation.  The adapter calls `Field` and `Error`. -/
structure FieldError where
  /-- The namespace of the failing field, such as `User.Name`. -/
  Namespace : String
  /-- The name of the failing field. -/
  Field : String
  /-- The rule that failed. -/
  Tag : String
  /-- The parameter of the rule. -/
  Param : String
  /-- The value that failed the rule. -/
  Value : Data
  /-- The text of the method `Error`, the default message of the engine. -/
  Error : String

/-- A non-nil Go `error`, by dynamic type. -/
inductive GoError where
  /-- A value made by `errors.New`. -/
  | errorString (s : String)
  /-- A `*validator.InvalidValidationError`, holding the type it was given. -/
  | InvalidValidationError (typ : Option GoType)
  /-- A `validator.ValidationErrors`, the violations in reported order. -/
  | ValidationErrors (errs : List FieldError)

/-- The engine as the adapter uses it: the call `validator.New().Struct(s)`
(lines 59-60).  For the value it is given it either returns an `error`, `none`
being the nil error, or panics. -/
abbrev Engine := Any → Except Panic (Option GoError)

/-! ## The two functions of `validator.go` -/

/-- The function `getErrorMessage` (validator.go, lines 22-36). -/
def getErrorMessage (fe : FieldError) (s : Any) : Except Panic String := do
  let val := ValueOf s
  let t ← val.Typ
  let found ← t.FieldByName fe.Field
  match found with
  | none => pure "Unknown field"
  | some field =>
    let errorMessage := field.Tag.Get "errormessage"
    if errorMessage = "" then pure fe.Error
    else pure errorMessage

/-- The loop of `Validate` (lines 69-71): each violation in turn is resolved
and appended to `errorsStrings`. -/
def appendMessages (s : Any) (errorsStrings : List String) (validationErrors : List FieldError) :
    Except Panic (List String) :=
  validationErrors.foldlM
    (fun acc err => do
      let msg ← getErrorMessage err s
      pure (acc ++ [msg]))
    errorsStrings

/-- The function `Validate` (validator.go, lines 52-77).  The result is the
pair it returns, the nil slice being `[]` and the nil error `none`; a panic
of the engine or of `getErrorMessage` is not recovered and ends the call. -/
def Validate (engine : Engine) (s : Any) : Except Panic (List String × Option GoError) :=
  if (ValueOf s).Kind ≠ Kind.Struct then
    pure ([], some (GoError.errorString "input must be a struct"))
  else do
    let err ← engine s
    match err with
    | some err =>
      match err with
      | .InvalidValidationError _ => pure ([], some err)
      | .ValidationErrors validationErrors => do
        let errorsStrings ← appendMessages s [] validationErrors
        pure (errorsStrings, none)
      | .errorString _ => pure ([], none)
    | none => pure ([], none)

/-! ## A concrete engine and concrete records

The theorems below hold for every engine.  The engine and the records of this
section serve their concrete instances only: `hasValue`, `defaultMessage`,
`isExported`, `isSkipped`, `undefinedRule`, `parseTags`, `requiredFailure`,
`structFailures` and `derefTop` are the parts of `requiredEngine`. -/

/-- The check of the rule `required`: a number or boolean is not zero, a
string is not empty, a reference is not nil. -/
def hasValue : Data → Bool
  | .word n => n != 0
  | .text t => t != ""
  | .nil => false
  | .ref _ => true
  | .seq _ => true

/-- The default message of the engine for a violation. -/
def defaultMessage (ns field tag : String) : String :=
  "Key: '" ++ ns ++ "' Error:Field validation for '" ++ field ++ "' failed on the '" ++ tag ++ "' tag"

/-- Whether a field name is exported: it starts with an upper-case letter. -/
def isExported (name : String) : Bool :=
  match name.toList with
  | c :: _ => c.isUpper
  | [] => false

/-- The fields the engine leaves alone: unexported fields that are not
embedded, and fields tagged `validate:"-"`. -/
def isSkipped (f : StructField) : Bool :=
  (!f.Anonymous && !isExported f.Name) || f.Tag.Get "validate" == "-"

/-- The panic of the engine for a field whose `validate` tag names a rule that
is not registered; `required` is the one rule this engine has. -/
def undefinedRule (f : StructField) : Option Panic :=
  if isSkipped f = false ∧ f.Tag.Get "validate" ≠ "" ∧ f.Tag.Get "validate" ≠ "required" then
    some (.engine ("Undefined validation function '" ++ f.Tag.Get "validate" ++
      "' on field '" ++ f.Name ++ "'"))
  else none

/-- The engine reads the tags of all fields of a struct type before it looks
at any value, and panics at the first undefined rule. -/
def parseTags : List StructField → Except Panic Unit
  | [] => .ok ()
  | f :: fs =>
    match undefinedRule f with
    | some p => .error p
    | none => parseTags fs

/-- The violation of `required` reported for a field, if it has that rule and
no value.  It is reported under the field's own name. -/
def requiredFailure (ns : String) (f : StructField) (d : Data) : List FieldError :=
  if f.Tag.Get "validate" = "required" ∧ hasValue d = false then
    [{ Namespace := ns ++ f.Name, Field := f.Name, Tag := "required", Param := "",
       Value := d, Error := defaultMessage (ns ++ f.Name) f.Name "required" }]
  else []

/-- The violations of a struct value, field by field in declaration order; a
field that is itself a struct is validated in turn, right after the field's
own rule, and its violations carry the names of the nested fields. -/
def structFailures : Nat → String → List StructField → List Data →
    Except Panic (List FieldError)
  | 0, _, _, _ => .ok []
  | fuel + 1, ns, fields, items => do
    parseTags fields
    let parts ← (fields.zip items).mapM (fun fd =>
      if isSkipped fd.1 then pure []
      else do
        let nested ←
          (match fd.1.Typ, fd.2 with
           | .struct _ nestedFields, .seq nestedItems =>
             structFailures fuel (ns ++ fd.1.Name ++ ".") nestedFields nestedItems
           | _, _ => pure [])
        pure (requiredFailure ns fd.1 fd.2 ++ nested))
    pure parts.flatten

/-- The value the engine validates: what a non-nil pointer points to, and the
value itself otherwise. -/
def derefTop (v : Value) : Value :=
  match v.typ, v.data with
  | .pointer t, .ref d => ⟨t, d⟩
  | _, _ => v

/-- Modelled from the spec: the external validation engine (section 6: given a
record, it returns a structural-usage error, a collection of per-field rule
violations, or success), which is a library outside the repository.  This
instance has the one rule `required`, on fields that hold a number, a
boolean, a string or a reference.  It descends into fields that are structs,
refuses `time.Time` and everything that is neither a struct nor a pointer to
one with an `InvalidValidationError`, and panics, as the library does, on a
`validate` tag that names a rule it does not have. -/
def requiredEngine : Engine := fun s =>
  match s with
  | none => .ok (some (.InvalidValidationError none))
  | some v =>
    match derefTop v with
    | ⟨.struct name fields, .seq items⟩ =>
      if name = "time.Time" then .ok (some (.InvalidValidationError (some v.typ)))
      else
        match structFailures ((GoType.struct name fields).depth) (name ++ ".") fields items with
        | .error p => .error p
        | .ok [] => .ok none
        | .ok (e :: es) => .ok (some (.ValidationErrors (e :: es)))
    | _ => .ok (some (.InvalidValidationError (some v.typ)))

/-- The Go value `42`. -/
def fortyTwo : Any := some ⟨.scalar .Int, .word 42⟩

/-- The struct type
`User struct { Name string validate:"required" errormessage:"name is required" }`. -/
def userType : GoType :=
  .struct "User"
    [.mk "Name" (.scalar .String) [("validate", "required"), ("errormessage", "name is required")] false]

/-- The value `User{Name: ""}`. -/
def emptyUser : Any := some ⟨userType, .seq [.text ""]⟩

/-- The value `User{Name: "Ada"}`. -/
def namedUser : Any := some ⟨userType, .seq [.text "Ada"]⟩

/-- The struct type `Plain struct { Name string validate:"required" }`, with no
custom message. -/
def plainType : GoType :=
  .struct "Plain" [.mk "Name" (.scalar .String) [("validate", "required")] false]

/-- The value `Plain{Name: ""}`. -/
def emptyPlain : Any := some ⟨plainType, .seq [.text ""]⟩

/-- The struct type `Address struct { Street string validate:"required" }`. -/
def addressType : GoType :=
  .struct "Address" [.mk "Street" (.scalar .String) [("validate", "required")] false]

/-- The struct type `Order struct { Addr Address }`: the field `Addr` is a named
field holding a nested record, not an embedded one. -/
def orderType : GoType :=
  .struct "Order" [.mk "Addr" addressType [] false]

/-- The value `Order{Addr: Address{Street: ""}}`. -/
def emptyOrder : Any := some ⟨orderType, .seq [.seq [.text ""]]⟩

/-- The value `time.Time{}`, with the three unexported fields of the type. -/
def zeroTime : Any :=
  some ⟨.struct "time.Time"
      [.mk "wall" (.scalar .Uint64) [] false, .mk "ext" (.scalar .Int64) [] false,
       .mk "loc" (.pointer (.struct "time.Location" [])) [] false],
    .seq [.word 0, .word 0, .nil]⟩

/-- The value `&User{Name: ""}`, a pointer to a struct. -/
def userPointer : Any := some ⟨.pointer userType, .ref (.seq [.text ""])⟩

/-- The value `[]string{"a"}`, a container. -/
def stringSlice : Any := some ⟨.slice (.scalar .String), .seq [.text "a"]⟩

/-- The struct type
`Account struct { Name string validate:"required" errormessage:"name is required";
Email string validate:"required" }`. -/
def accountType : GoType :=
  .struct "Account"
    [.mk "Name" (.scalar .String) [("validate", "required"), ("errormessage", "name is required")] false,
     .mk "Email" (.scalar .String) [("validate", "required")] false]

/-- The value `Account{Name: "", Email: ""}`. -/
def emptyAccount : Any := some ⟨accountType, .seq [.text "", .text ""]⟩

/-- The violation the concrete engine reports for an empty `Name` of `Account`. -/
def accountNameFailure : FieldError :=
  { Namespace := "Account.Name", Field := "Name", Tag := "required", Param := "",
    Value := .text "", Error := defaultMessage "Account.Name" "Name" "required" }

/-- The violation the concrete engine reports for an empty `Email` of `Account`. -/
def accountEmailFailure : FieldError :=
  { Namespace := "Account.Email", Field := "Email", Tag := "required", Param := "",
    Value := .text "", Error := defaultMessage "Account.Email" "Email" "required" }

/-- The violation the concrete engine reports for an empty `Name` of `User`. -/
def userNameFailure : FieldError :=
  { Namespace := "User.Name", Field := "Name", Tag := "required", Param := "",
    Value := .text "", Error := defaultMessage "User.Name" "Name" "required" }

/-- The violation the concrete engine reports for an empty `Name` of `Plain`. -/
def plainNameFailure : FieldError :=
  { Namespace := "Plain.Name", Field := "Name", Tag := "required", Param := "",
    Value := .text "", Error := defaultMessage "Plain.Name" "Name" "required" }

/-- The violation the concrete engine reports for an empty `Street` inside the
field `Addr` of `Order`. -/
def orderStreetFailure : FieldError :=
  { Namespace := "Order.Addr.Street", Field := "Street", Tag := "required", Param := "",
    Value := .text "", Error := defaultMessage "Order.Addr.Street" "Street" "required" }

/-- The struct type `Bogus struct { Name string validate:"bogus" }`, whose tag
names a rule that no engine has. -/
def bogusType : GoType :=
  .struct "Bogus" [.mk "Name" (.scalar .String) [("validate", "bogus")] false]

/-- The value `Bogus{}`. -/
def emptyBogus : Any := some ⟨bogusType, .seq [.text ""]⟩

/-- The struct type
`Inner struct { Name string validate:"required" errormessage:"inner" }`. -/
def innerType : GoType :=
  .struct "Inner"
    [.mk "Name" (.scalar .String) [("validate", "required"), ("errormessage", "inner")] false]

/-- The struct type `Shadow struct { Name string errormessage:"outer"; Inner }`:
the field `Name` of the embedded `Inner` is hidden by the field `Name` of
`Shadow` itself. -/
def shadowType : GoType :=
  .struct "Shadow"
    [.mk "Name" (.scalar .String) [("errormessage", "outer")] false,
     .mk "Inner" innerType [] true]

/-- The value `Shadow{}`. -/
def emptyShadow : Any := some ⟨shadowType, .seq [.text "", .seq [.text ""]]⟩

/-- The violation the concrete engine reports for the empty `Name` of the
embedded `Inner` of `Shadow`. -/
def shadowNameFailure : FieldError :=
  { Namespace := "Shadow.Inner.Name", Field := "Name", Tag := "required", Param := "",
    Value := .text "", Error := defaultMessage "Shadow.Inner.Name" "Name" "required" }

/-- The struct type `Parcel struct { Address }`: here `Address` is embedded, so
its field `Street` is promoted to `Parcel`. -/
def parcelType : GoType :=
  .struct "Parcel" [.mk "Address" addressType [] true]

/-! ## Auxiliary facts -/

/-- The struct behind an embedded field is less deep than the field. -/
theorem embeddedStruct_depth (f : StructField) (fs : List StructField)
    (h : f.embeddedStruct = some fs) : depthFields fs + 1 ≤ f.depth := by
  obtain ⟨n, t, tag, a⟩ := f
  simp only [StructField.embeddedStruct, StructField.Anonymous, StructField.Typ] at h
  split at h
  · split at h
    · simp only [Option.some.injEq] at h
      subst h
      simp [StructField.depth, GoType.depth]
    · simp only [Option.some.injEq] at h
      subst h
      simp [StructField.depth, GoType.depth]
    · cases h
  · cases h

/-- A struct queued while scanning a field was queued before or lies behind
that field. -/
theorem scanField_queue (name : String) (st st' : Option StructField × List (List StructField))
    (f : StructField) (h : scanField name st f = some st') :
    ∀ g ∈ st'.2, g ∈ st.2 ∨ depthFields g + 1 ≤ f.depth := by
  intro g hg
  unfold scanField at h
  split at h
  · split at h
    · cases h
    · simp only [Option.some.injEq] at h
      subst h
      exact Or.inl hg
  · split at h
    · simp only [Option.some.injEq] at h
      subst h
      exact Or.inl hg
    · split at h
      · simp only [Option.some.injEq] at h
        subst h
        exact Or.inl hg
      · rename_i fs hfs
        simp only [Option.some.injEq] at h
        subst h
        simp only [List.mem_append, List.mem_singleton] at hg
        rcases hg with hg | rfl
        · exact Or.inl hg
        · exact Or.inr (embeddedStruct_depth f g hfs)

/-- A struct queued while scanning a field list was queued before or lies
behind one of its fields. -/
theorem scanFields_queue (name : String) (fs : List StructField) :
    ∀ (st st' : Option StructField × List (List StructField)),
      fs.foldlM (scanField name) st = some st' →
      ∀ g ∈ st'.2, g ∈ st.2 ∨ depthFields g + 1 ≤ depthFields fs := by
  induction fs with
  | nil =>
    intro st st' h g hg
    simp only [List.foldlM, pure, Option.some.injEq] at h
    subst h
    exact Or.inl hg
  | cons f rest ih =>
    intro st st' h g hg
    simp only [List.foldlM, bind, Option.bind] at h
    cases hstep : scanField name st f with
    | none => simp [hstep] at h
    | some mid =>
      simp only [hstep] at h
      rcases ih mid st' h g hg with hmid | hdeep
      · rcases scanField_queue name st mid f hstep g hmid with hst | hdeep
        · exact Or.inl hst
        · refine Or.inr (le_trans hdeep ?_)
          simp only [depthFields]
          exact le_max_left _ _
      · refine Or.inr (le_trans hdeep ?_)
        simp only [depthFields]
        exact le_max_right _ _

/-- A struct queued while scanning a level was queued before or lies behind a
field of the level. -/
theorem scanStructs_queue (name : String) (cur : List (List StructField)) :
    ∀ (st st' : Option StructField × List (List StructField)),
      cur.foldlM (fun st fs => fs.foldlM (scanField name) st) st = some st' →
      ∀ g ∈ st'.2, g ∈ st.2 ∨ depthFields g + 1 ≤ levelDepth cur := by
  induction cur with
  | nil =>
    intro st st' h g hg
    simp only [List.foldlM, pure, Option.some.injEq] at h
    subst h
    exact Or.inl hg
  | cons fs rest ih =>
    intro st st' h g hg
    simp only [List.foldlM, bind, Option.bind] at h
    cases hstep : fs.foldlM (scanField name) st with
    | none => simp [hstep] at h
    | some mid =>
      simp only [hstep] at h
      rcases ih mid st' h g hg with hmid | hdeep
      · rcases scanFields_queue name fs st mid hstep g hmid with hst | hdeep
        · exact Or.inl hst
        · refine Or.inr (le_trans hdeep ?_)
          simp only [levelDepth, List.map_cons, List.foldr_cons]
          exact le_max_left _ _
      · refine Or.inr (le_trans hdeep ?_)
        simp only [levelDepth, List.map_cons, List.foldr_cons]
        exact le_max_right _ _

/-- Every struct queued for the next level is less deep than the current
level. -/
theorem scanLevel_queue (name : String) (cur next : List (List StructField))
    (r : Option StructField) (h : scanLevel name cur = some (r, next)) :
    ∀ g ∈ next, depthFields g + 1 ≤ levelDepth cur := by
  intro g hg
  rcases scanStructs_queue name cur (none, []) (r, next) h g hg with h0 | hd
  · cases h0
  · exact hd

/-- A non-empty level whose structs are all less deep than `n` is less deep
than `n`. -/
theorem levelDepth_lt (next : List (List StructField)) (n : Nat)
    (h : ∀ g ∈ next, depthFields g + 1 ≤ n) (hne : next ≠ []) : levelDepth next + 1 ≤ n := by
  induction next with
  | nil => exact absurd rfl hne
  | cons g rest ih =>
    simp only [levelDepth, List.map_cons, List.foldr_cons]
    have hg := h g (List.mem_cons_self _ _)
    by_cases hr : rest = []
    · subst hr
      simp only [List.map_nil, List.foldr_nil]
      omega
    · have := ih (fun g' hg' => h g' (List.mem_cons_of_mem _ hg')) hr
      simp only [levelDepth] at this
      omega

/-- The search over an empty level finds nothing. -/
theorem fieldByNameFunc_nil (name : String) (n : Nat) : fieldByNameFunc name n [] = none := by
  cases n <;> simp [fieldByNameFunc]

/-- The fuel of `fieldByNameFunc` is enough once it exceeds the nesting depth of
the queued structs: more fuel gives the same result. -/
theorem fieldByNameFunc_fuel (name : String) :
    ∀ (n : Nat) (cur : List (List StructField)), levelDepth cur < n →
      ∀ m, n ≤ m → fieldByNameFunc name m cur = fieldByNameFunc name n cur := by
  intro n
  induction n with
  | zero => intro cur h; omega
  | succ n ih =>
    intro cur hcur m hm
    obtain ⟨m', rfl⟩ : ∃ m', m = m' + 1 := ⟨m - 1, by omega⟩
    simp only [fieldByNameFunc]
    split
    · rfl
    · cases hscan : scanLevel name cur with
      | none => rfl
      | some res =>
        obtain ⟨r, next⟩ := res
        cases r with
        | some f => rfl
        | none =>
          simp only
          by_cases hne : next = []
          · subst hne
            rw [fieldByNameFunc_nil, fieldByNameFunc_nil]
          · have hq := scanLevel_queue name cur next none hscan
            have hlt := levelDepth_lt next (levelDepth cur) hq hne
            exact ih next (by omega) m' (by omega)

/-- The fuel `FieldByName` gives the search is enough. -/
theorem fieldByName_fuel (name sname : String) (fields : List StructField) (k : Nat) :
    fieldByNameFunc name ((GoType.struct sname fields).depth + 1 + k) [fields] =
      fieldByNameFunc name ((GoType.struct sname fields).depth + 1) [fields] := by
  apply fieldByNameFunc_fuel
  · simp only [levelDepth, GoType.depth, List.map_cons, List.map_nil, List.foldr_cons,
      List.foldr_nil]
    omega
  · omega

/-- A value of kind struct is a non-nil interface holding a struct type. -/
theorem kind_struct_inv (s : Any) (h : (ValueOf s).Kind = Kind.Struct) :
    ∃ name fields data, s = some ⟨.struct name fields, data⟩ := by
  cases s with
  | none => simp [ValueOf, ReflectValue.Kind] at h
  | some v =>
    obtain ⟨t, d⟩ := v
    cases t with
    | struct name fields => exact ⟨name, fields, d, rfl⟩
    | scalar k => cases k <;> simp [ValueOf, ReflectValue.Kind, GoType.Kind, ScalarKind.toKind] at h
    | _ => simp [ValueOf, ReflectValue.Kind, GoType.Kind] at h

/-- The lookup `FieldByName` does not panic on a struct type. -/
theorem fieldByName_struct (name : String) (fields : List StructField) (n : String) :
    ∃ r, (GoType.struct name fields).FieldByName n = .ok r := by
  simp only [GoType.FieldByName]
  by_cases hn : n = ""
  · exact ⟨none, by simp [hn]⟩
  · cases hf : fields.find? (fun tf => tf.Name == n) with
    | some f => exact ⟨some f, by simp [hn]⟩
    | none =>
      by_cases ha : (fields.any fun tf => tf.Anonymous) = true
      · exact ⟨fieldByNameFunc n ((GoType.struct name fields).depth + 1) [fields],
          by simp only [hn, if_false, ha, if_true]⟩
      · exact ⟨none, by simp only [hn, if_false, ha]; rfl⟩

/-- What `getErrorMessage` returns once the lookup result is known. -/
theorem getErrorMessage_of_lookup (fe : FieldError) (v : Value) (r : Option StructField)
    (h : v.typ.FieldByName fe.Field = .ok r) :
    getErrorMessage fe (some v) = .ok
      (match r with
       | none => "Unknown field"
       | some field =>
         if field.Tag.Get "errormessage" = "" then fe.Error else field.Tag.Get "errormessage") := by
  unfold getErrorMessage
  simp only [ValueOf, ReflectValue.Typ, bind, Except.bind, h]
  cases r with
  | none => rfl
  | some field =>
    by_cases ht : field.Tag.Get "errormessage" = ""
    · simp [ht, pure, Except.pure]
    · simp [ht, pure, Except.pure]

/-- On a struct, `getErrorMessage` returns a string. -/
theorem getErrorMessage_struct (fe : FieldError) (s : Any)
    (h : (ValueOf s).Kind = Kind.Struct) : ∃ m, getErrorMessage fe s = .ok m := by
  obtain ⟨name, fields, data, rfl⟩ := kind_struct_inv s h
  obtain ⟨r, hr⟩ := fieldByName_struct name fields fe.Field
  exact ⟨_, getErrorMessage_of_lookup fe ⟨.struct name fields, data⟩ r hr⟩

/-- The loop of `Validate` on a struct appends one resolved message per
violation, in order, behind what was already collected. -/
theorem appendMessages_struct (s : Any) (h : (ValueOf s).Kind = Kind.Struct)
    (errs : List FieldError) :
    ∀ acc : List String, ∃ msgs, appendMessages s acc errs = .ok (acc ++ msgs) ∧
      List.Forall₂ (fun fe m => getErrorMessage fe s = .ok m) errs msgs := by
  induction errs with
  | nil =>
    intro acc
    exact ⟨[], by simp [appendMessages, pure, Except.pure], List.Forall₂.nil⟩
  | cons fe rest ih =>
    intro acc
    obtain ⟨m, hm⟩ := getErrorMessage_struct fe s h
    obtain ⟨msgs, hrest, hall⟩ := ih (acc ++ [m])
    refine ⟨m :: msgs, ?_, List.Forall₂.cons hm hall⟩
    unfold appendMessages at hrest ⊢
    simp only [List.foldlM, bind, Except.bind, hm, pure, Except.pure]
    simpa [bind, Except.bind, pure, Except.pure] using hrest

/-- On a struct for which the engine reports violations, `Validate` returns the
messages collected by its loop and a nil error. -/
theorem Validate_of_violations (engine : Engine) (s : Any) (errs : List FieldError)
    (hs : (ValueOf s).Kind = Kind.Struct) (he : engine s = .ok (some (.ValidationErrors errs))) :
    ∃ msgs, Validate engine s = .ok (msgs, none) ∧
      List.Forall₂ (fun fe m => getErrorMessage fe s = .ok m) errs msgs := by
  obtain ⟨msgs, hloop, hall⟩ := appendMessages_struct s hs errs []
  refine ⟨msgs, ?_, hall⟩
  unfold Validate
  simp only [hs, ne_eq, not_true_eq_false, if_false, he]
  simp only [bind, Except.bind, hloop, List.nil_append, pure, Except.pure]

/-- A lookup that returns a result was made on a struct type. -/
theorem kind_of_fieldByName (t : GoType) (n : String) (r : Option StructField)
    (h : t.FieldByName n = .ok r) : t.Kind = Kind.Struct := by
  cases t <;> first | rfl | simp [GoType.FieldByName] at h

/-- A tag without the key gives the empty string. -/
theorem StructTag.Get_absent (tag : StructTag) (key : String)
    (h : ∀ kv ∈ tag, kv.1 ≠ key) : StructTag.Get tag key = "" := by
  have hnone : tag.find? (fun kv => kv.1 == key) = none := by
    rw [List.find?_eq_none]
    intro kv hkv
    simpa using h kv hkv
  simp [StructTag.Get, hnone]

/-- The first branch of `Validate`: an input that is not a struct. -/
theorem validate_not_struct (engine : Engine) (s : Any)
    (h : (ValueOf s).Kind ≠ Kind.Struct) :
    Validate engine s = .ok ([], some (.errorString "input must be a struct")) := by
  unfold Validate
  simp only [h, ne_eq, not_false_eq_true, if_true]
  rfl

/-- The branch of `Validate` for an `InvalidValidationError` of the engine. -/
theorem validate_invalid (engine : Engine) (s : Any) (t : Option GoType)
    (hs : (ValueOf s).Kind = Kind.Struct) (he : engine s = .ok (some (.InvalidValidationError t))) :
    Validate engine s = .ok ([], some (.InvalidValidationError t)) := by
  unfold Validate
  simp only [hs, ne_eq, not_true_eq_false, if_false, he]
  rfl

/-- The last branch of `Validate`: the engine returns the nil error. -/
theorem validate_nil_error (engine : Engine) (s : Any)
    (hs : (ValueOf s).Kind = Kind.Struct) (he : engine s = .ok none) :
    Validate engine s = .ok ([], none) := by
  unfold Validate
  simp only [hs, ne_eq, not_true_eq_false, if_false, he]
  rfl

/-- The branch of `Validate` that neither type assertion takes: an error of the
engine that is neither an `InvalidValidationError` nor a `ValidationErrors`
is dropped, and nothing is returned. -/
theorem validate_other_error (engine : Engine) (s : Any) (m : String)
    (hs : (ValueOf s).Kind = Kind.Struct) (he : engine s = .ok (some (.errorString m))) :
    Validate engine s = .ok ([], none) := by
  unfold Validate
  simp only [hs, ne_eq, not_true_eq_false, if_false, he]
  rfl

/-- A panic of the engine on a struct is the outcome of `Validate`. -/
theorem validate_engine_panic (engine : Engine) (s : Any) (p : Panic)
    (hs : (ValueOf s).Kind = Kind.Struct) (he : engine s = .error p) :
    Validate engine s = .error p := by
  unfold Validate
  simp only [hs, ne_eq, not_true_eq_false, if_false, he]
  rfl

/-- The only panic that leaves `Validate` is a panic of the engine on a struct:
the lookup of `getErrorMessage` panics on every input that is not a struct,
and `Validate` calls it on structs only.  So `Validate` returns a pair
whenever the input is not a struct or the engine returns. -/
theorem validate_panics_with_engine_only (engine : Engine) (s : Any) :
    (∀ p, Validate engine s = .error p →
      (ValueOf s).Kind = Kind.Struct ∧ engine s = .error p) ∧
    ((ValueOf s).Kind ≠ Kind.Struct ∨ (∃ e, engine s = .ok e) →
      ∃ r, Validate engine s = .ok r) ∧
    (∀ fe, (ValueOf s).Kind ≠ Kind.Struct → ∃ p, getErrorMessage fe s = .error p) ∧
    (∀ fe, (ValueOf s).Kind = Kind.Struct → ∃ m, getErrorMessage fe s = .ok m) := by
  have hret : ∀ e, (ValueOf s).Kind = Kind.Struct → engine s = .ok e →
      ∃ r, Validate engine s = .ok r := by
    intro e hs he
    cases e with
    | none => exact ⟨_, validate_nil_error engine s hs he⟩
    | some err =>
      cases err with
      | errorString m => exact ⟨_, validate_other_error engine s m hs he⟩
      | InvalidValidationError t => exact ⟨_, validate_invalid engine s t hs he⟩
      | ValidationErrors errs =>
        obtain ⟨msgs, hv, _⟩ := Validate_of_violations engine s errs hs he
        exact ⟨_, hv⟩
  refine ⟨?_, ?_, ?_, fun fe hs => getErrorMessage_struct fe s hs⟩
  · intro p hp
    by_cases hs : (ValueOf s).Kind = Kind.Struct
    · cases he : engine s with
      | error q =>
        rw [validate_engine_panic engine s q hs he] at hp
        simp only [Except.error.injEq] at hp
        exact ⟨hs, by rw [hp]⟩
      | ok e =>
        obtain ⟨r, hr⟩ := hret e hs he
        rw [hr] at hp
        cases hp
    · rw [validate_not_struct engine s hs] at hp
      cases hp
  · intro h
    by_cases hs : (ValueOf s).Kind = Kind.Struct
    · rcases h with h | ⟨e, he⟩
      · exact absurd hs h
      · exact hret e hs he
    · exact ⟨_, validate_not_struct engine s hs⟩
  · intro fe hs
    cases s with
    | none => exact ⟨.typeOnZeroValue, rfl⟩
    | some v =>
      obtain ⟨t, d⟩ := v
      cases t with
      | struct name fields => exact absurd rfl hs
      | _ => exact ⟨.fieldByNameOfNonStruct, rfl⟩

/-! ## The claims -/

/-- C1: for every input whose reflected kind is not struct (a primitive, a
container, a pointer to a struct, the nil interface), `Validate` returns nil
messages and the error "input must be a struct"; the result is the same for
every engine, one that would panic included, so the engine is not called. -/
theorem Validate_rejects_non_struct (engine : Engine) (s : Any)
    (h : (ValueOf s).Kind ≠ Kind.Struct) :
    Validate engine s = .ok ([], some (.errorString "input must be a struct")) :=
  validate_not_struct engine s h

/-- Instances of C1: the number 42, the nil interface, a pointer to a struct
and a slice. -/
theorem Validate_rejects_non_struct_witness :
    ((ValueOf fortyTwo).Kind ≠ Kind.Struct ∧
      Validate requiredEngine fortyTwo = .ok ([], some (.errorString "input must be a struct"))) ∧
    ((ValueOf none).Kind ≠ Kind.Struct ∧
      Validate requiredEngine none = .ok ([], some (.errorString "input must be a struct"))) ∧
    ((ValueOf userPointer).Kind ≠ Kind.Struct ∧
      Validate requiredEngine userPointer = .ok ([], some (.errorString "input must be a struct"))) ∧
    ((ValueOf stringSlice).Kind ≠ Kind.Struct ∧
      Validate requiredEngine stringSlice = .ok ([], some (.errorString "input must be a struct"))) :=
  ⟨⟨by decide, Validate_rejects_non_struct requiredEngine fortyTwo (by decide)⟩,
   ⟨by decide, Validate_rejects_non_struct requiredEngine none (by decide)⟩,
   ⟨by decide, Validate_rejects_non_struct requiredEngine userPointer (by decide)⟩,
   ⟨by decide, Validate_rejects_non_struct requiredEngine stringSlice (by decide)⟩⟩

/-- C2: for every struct input for which the engine reports the violations
`errs`, of any number N, `Validate` returns a nil error and a message list of
length N whose i-th entry is the message `getErrorMessage` resolves for the
i-th violation: the reported list mapped through message resolution, in
order. -/
theorem Validate_maps_violations (engine : Engine) (s : Any) (errs : List FieldError)
    (hs : (ValueOf s).Kind = Kind.Struct) (he : engine s = .ok (some (.ValidationErrors errs))) :
    ∃ msgs, Validate engine s = .ok (msgs, none) ∧ msgs.length = errs.length ∧
      ∀ (i : Nat) (hi : i < errs.length) (hj : i < msgs.length),
        getErrorMessage (errs.get ⟨i, hi⟩) s = .ok (msgs.get ⟨i, hj⟩) := by
  obtain ⟨msgs, hv, hall⟩ := Validate_of_violations engine s errs hs he
  exact ⟨msgs, hv, hall.length_eq.symm, fun i hi hj => hall.get hi hj⟩

/-- An instance of C2: both fields of an `Account` are empty, the engine reports
`Name` and then `Email`, and the two messages come back in that order. -/
theorem Validate_maps_violations_witness :
    (ValueOf emptyAccount).Kind = Kind.Struct ∧
    requiredEngine emptyAccount = .ok (some (.ValidationErrors [accountNameFailure, accountEmailFailure])) ∧
    Validate requiredEngine emptyAccount =
      .ok (["name is required",
            "Key: 'Account.Email' Error:Field validation for 'Email' failed on the 'required' tag"],
           none) ∧
    ∃ msgs, Validate requiredEngine emptyAccount = .ok (msgs, none) ∧ msgs.length = 2 ∧
      ∀ (i : Nat) (hi : i < 2) (hj : i < msgs.length),
        getErrorMessage ([accountNameFailure, accountEmailFailure].get ⟨i, hi⟩) emptyAccount =
          .ok (msgs.get ⟨i, hj⟩) :=
  ⟨by decide, rfl, rfl,
   Validate_maps_violations requiredEngine emptyAccount [accountNameFailure, accountEmailFailure]
     (by decide) rfl⟩

/-- C3: for every struct input for which the engine returns its internal error
(an `InvalidValidationError`, the error with which the engine signals a
failure of usage rather than rule violations), `Validate` returns that same
error value, unchanged, and nil messages. -/
theorem Validate_propagates_engine_error (engine : Engine) (s : Any) (t : Option GoType)
    (hs : (ValueOf s).Kind = Kind.Struct) (he : engine s = .ok (some (.InvalidValidationError t))) :
    Validate engine s = .ok ([], some (.InvalidValidationError t)) :=
  validate_invalid engine s t hs he

/-- An instance of C3: the engine refuses a `time.Time`, which is a struct. -/
theorem Validate_propagates_engine_error_witness :
    (ValueOf zeroTime).Kind = Kind.Struct ∧
    (∃ t, requiredEngine zeroTime = .ok (some (.InvalidValidationError t)) ∧
      Validate requiredEngine zeroTime = .ok ([], some (.InvalidValidationError t))) :=
  ⟨by decide, _, rfl, Validate_propagates_engine_error requiredEngine zeroTime _ (by decide) rfl⟩

/-- C4: when `Validate` returns a non-nil error, there are no messages and
either the input is not a struct (and the error is the fixed one) or the
engine reported an `InvalidValidationError` (and the error is that one); and
when the engine reports rule violations for a struct, the error is nil and
the violations are the entries of the message list. -/
theorem Validate_error_only_structural (engine : Engine) (s : Any) :
    (∀ msgs e, Validate engine s = .ok (msgs, some e) →
      msgs = [] ∧
      (((ValueOf s).Kind ≠ Kind.Struct ∧ e = .errorString "input must be a struct") ∨
       ((ValueOf s).Kind = Kind.Struct ∧
          ∃ t, engine s = .ok (some (.InvalidValidationError t)) ∧ e = .InvalidValidationError t))) ∧
    (∀ errs, (ValueOf s).Kind = Kind.Struct → engine s = .ok (some (.ValidationErrors errs)) →
      ∃ msgs, Validate engine s = .ok (msgs, none) ∧
        List.Forall₂ (fun fe m => getErrorMessage fe s = .ok m) errs msgs) := by
  refine ⟨?_, fun errs hs he => Validate_of_violations engine s errs hs he⟩
  intro msgs e hv
  by_cases hs : (ValueOf s).Kind = Kind.Struct
  · cases he : engine s with
    | error p =>
      rw [validate_engine_panic engine s p hs he] at hv
      cases hv
    | ok res =>
      cases res with
      | none =>
        rw [validate_nil_error engine s hs he] at hv
        simp at hv
      | some err =>
        cases err with
        | errorString m =>
          rw [validate_other_error engine s m hs he] at hv
          simp at hv
        | InvalidValidationError t =>
          rw [validate_invalid engine s t hs he] at hv
          simp only [Except.ok.injEq, Prod.mk.injEq, Option.some.injEq] at hv
          exact ⟨hv.1.symm, Or.inr ⟨hs, t, rfl, hv.2.symm⟩⟩
        | ValidationErrors errs =>
          obtain ⟨ms, hm, _⟩ := Validate_of_violations engine s errs hs he
          rw [hm] at hv
          simp at hv
  · rw [validate_not_struct engine s hs] at hv
    simp only [Except.ok.injEq, Prod.mk.injEq, Option.some.injEq] at hv
    exact ⟨hv.1.symm, Or.inl ⟨hs, hv.2.symm⟩⟩

/-- Instances of C4: the error for 42 is the fixed one, and the violation of an
empty `User` comes back as a message with a nil error. -/
theorem Validate_error_only_structural_witness :
    (Validate requiredEngine fortyTwo = .ok ([], some (.errorString "input must be a struct")) ∧
      (ValueOf fortyTwo).Kind ≠ Kind.Struct) ∧
    (∃ msgs, Validate requiredEngine emptyUser = .ok (msgs, none) ∧
      List.Forall₂ (fun fe m => getErrorMessage fe emptyUser = .ok m) [userNameFailure] msgs) :=
  ⟨⟨rfl, by decide⟩,
   (Validate_error_only_structural requiredEngine emptyUser).2 [userNameFailure] (by decide) rfl⟩

/-- C5: for every struct input for which the engine reports success, `Validate`
returns nil messages and a nil error. -/
theorem Validate_success (engine : Engine) (s : Any)
    (hs : (ValueOf s).Kind = Kind.Struct) (he : engine s = .ok none) :
    Validate engine s = .ok ([], none) :=
  validate_nil_error engine s hs he

/-- An instance of C5: a `User` with a name passes. -/
theorem Validate_success_witness :
    (ValueOf namedUser).Kind = Kind.Struct ∧ requiredEngine namedUser = .ok none ∧
    Validate requiredEngine namedUser = .ok ([], none) :=
  ⟨by decide, rfl, Validate_success requiredEngine namedUser (by decide) rfl⟩

/-- C6: when the reported field name names a field of the record's type whose
`errormessage` tag is not empty, `getErrorMessage` returns that tag string as
it is, whatever the rule, the value and the default text of the failure; and
a record with exactly one such violation makes `Validate` return the list
holding just that string, with a nil error. -/
theorem getErrorMessage_custom (v : Value) (name : String) (field : StructField)
    (hf : v.typ.FieldByName name = .ok (some field))
    (hm : field.Tag.Get "errormessage" ≠ "") :
    (∀ fe : FieldError, fe.Field = name →
      getErrorMessage fe (some v) = .ok (field.Tag.Get "errormessage")) ∧
    (∀ (engine : Engine) (fe : FieldError), fe.Field = name →
      engine (some v) = .ok (some (.ValidationErrors [fe])) →
      Validate engine (some v) = .ok ([field.Tag.Get "errormessage"], none)) := by
  have hmsg : ∀ fe : FieldError, fe.Field = name →
      getErrorMessage fe (some v) = .ok (field.Tag.Get "errormessage") := by
    intro fe hfe
    have h := getErrorMessage_of_lookup fe v (some field) (by rw [hfe]; exact hf)
    simpa [hm] using h
  refine ⟨hmsg, ?_⟩
  intro engine fe hfe he
  have hs : (ValueOf (some v)).Kind = Kind.Struct := kind_of_fieldByName v.typ name _ hf
  obtain ⟨msgs, hv, hall⟩ := Validate_of_violations engine (some v) [fe] hs he
  cases hall with
  | cons h1 hrest =>
    cases hrest
    rw [hmsg fe hfe] at h1
    simp only [Except.ok.injEq] at h1
    rw [hv, ← h1]

/-- The example of C6: `Name` carries `validate:"required"` and
`errormessage:"name is required"`, and `Name` is empty. -/
theorem getErrorMessage_custom_witness :
    userType.FieldByName "Name" = .ok (some (.mk "Name" (.scalar .String)
      [("validate", "required"), ("errormessage", "name is required")] false)) ∧
    requiredEngine emptyUser = .ok (some (.ValidationErrors [userNameFailure])) ∧
    getErrorMessage userNameFailure emptyUser = .ok "name is required" ∧
    Validate requiredEngine emptyUser = .ok (["name is required"], none) :=
  ⟨rfl, rfl,
   (getErrorMessage_custom ⟨userType, .seq [.text ""]⟩ "Name" _ rfl (by decide)).1
     userNameFailure rfl,
   (getErrorMessage_custom ⟨userType, .seq [.text ""]⟩ "Name" _ rfl (by decide)).2
     requiredEngine userNameFailure rfl rfl⟩

/-- C7: when the reported field name names a field of the record's type whose
`errormessage` tag is absent or empty, `getErrorMessage` returns the default
text of the failure, the result of its method `Error`; and a record with
exactly one such violation makes `Validate` return the list holding just that
text, with a nil error. -/
theorem getErrorMessage_default (v : Value) (name : String) (field : StructField)
    (hf : v.typ.FieldByName name = .ok (some field))
    (hm : (∀ kv ∈ field.Tag, kv.1 ≠ "errormessage") ∨ field.Tag.Get "errormessage" = "") :
    (∀ fe : FieldError, fe.Field = name → getErrorMessage fe (some v) = .ok fe.Error) ∧
    (∀ (engine : Engine) (fe : FieldError), fe.Field = name →
      engine (some v) = .ok (some (.ValidationErrors [fe])) →
      Validate engine (some v) = .ok ([fe.Error], none)) := by
  have hempty : field.Tag.Get "errormessage" = "" :=
    hm.elim (StructTag.Get_absent field.Tag "errormessage") id
  have hmsg : ∀ fe : FieldError, fe.Field = name →
      getErrorMessage fe (some v) = .ok fe.Error := by
    intro fe hfe
    have h := getErrorMessage_of_lookup fe v (some field) (by rw [hfe]; exact hf)
    simpa [hempty] using h
  refine ⟨hmsg, ?_⟩
  intro engine fe hfe he
  have hs : (ValueOf (some v)).Kind = Kind.Struct := kind_of_fieldByName v.typ name _ hf
  obtain ⟨msgs, hv, hall⟩ := Validate_of_violations engine (some v) [fe] hs he
  cases hall with
  | cons h1 hrest =>
    cases hrest
    rw [hmsg fe hfe] at h1
    simp only [Except.ok.injEq] at h1
    rw [hv, ← h1]

/-- An instance of C7: the same record shape without the `errormessage` tag. -/
theorem getErrorMessage_default_witness :
    plainType.FieldByName "Name" =
      .ok (some (.mk "Name" (.scalar .String) [("validate", "required")] false)) ∧
    requiredEngine emptyPlain = .ok (some (.ValidationErrors [plainNameFailure])) ∧
    getErrorMessage plainNameFailure emptyPlain =
      .ok "Key: 'Plain.Name' Error:Field validation for 'Name' failed on the 'required' tag" ∧
    Validate requiredEngine emptyPlain =
      .ok (["Key: 'Plain.Name' Error:Field validation for 'Name' failed on the 'required' tag"],
           none) :=
  ⟨rfl, rfl,
   (getErrorMessage_default ⟨plainType, .seq [.text ""]⟩ "Name" _ rfl (Or.inl (by decide))).1
     plainNameFailure rfl,
   (getErrorMessage_default ⟨plainType, .seq [.text ""]⟩ "Name" _ rfl (Or.inr (by decide))).2
     requiredEngine plainNameFailure rfl rfl⟩

/-- C8: when the reported field name names no field of the record's struct
type (the lookup returns without a field, which it only does on a struct),
`getErrorMessage` returns the fixed string "Unknown field", whatever the
default text of the failure. -/
theorem getErrorMessage_unknown (v : Value) (name : String)
    (hf : v.typ.FieldByName name = .ok none) :
    ∀ fe : FieldError, fe.Field = name → getErrorMessage fe (some v) = .ok "Unknown field" := by
  intro fe hfe
  exact getErrorMessage_of_lookup fe v none (by rw [hfe]; exact hf)

/-- An instance of C8: `User` has no field `Age`. -/
theorem getErrorMessage_unknown_witness :
    userType.FieldByName "Age" = .ok none ∧
    getErrorMessage { userNameFailure with Field := "Age" } emptyUser = .ok "Unknown field" :=
  ⟨rfl,
   getErrorMessage_unknown ⟨userType, .seq [.text ""]⟩ "Age" rfl
     { userNameFailure with Field := "Age" } rfl⟩

/-- A field promoted from an embedded struct is found by `FieldByName`. -/
theorem fieldByName_promoted :
    parcelType.FieldByName "Street" =
      .ok (some (.mk "Street" (.scalar .String) [("validate", "required")] false)) := rfl

/-- The lookup by name on the top-level type can also hit a field that did not
fail: in `Shadow{}` the rule of the embedded `Inner.Name` fails, the engine
reports it under the name `Name`, and `Validate` returns the message of the
top-level field `Name`, which has no rule. -/
theorem Validate_shadowed_field :
    requiredEngine emptyShadow = .ok (some (.ValidationErrors [shadowNameFailure])) ∧
    shadowNameFailure.Namespace = "Shadow.Inner.Name" ∧
    Validate requiredEngine emptyShadow = .ok (["outer"], none) :=
  ⟨rfl, rfl, rfl⟩

/-- C9 fails on the code: `Order{Addr: Address{Street: ""}}` is a struct, the
engine reports the violation of the nested field under the name `Street`,
`Order` has no field of that name (`Addr` is not embedded), and `Validate`
returns the message "Unknown field" instead of the default text of the
failure, which the field `Street`, having no custom message, should get. -/
theorem Validate_nested_unknown_field :
    (ValueOf emptyOrder).Kind = Kind.Struct ∧
    requiredEngine emptyOrder = .ok (some (.ValidationErrors [orderStreetFailure])) ∧
    orderStreetFailure.Field = "Street" ∧
    orderStreetFailure.Error =
      "Key: 'Order.Addr.Street' Error:Field validation for 'Street' failed on the 'required' tag" ∧
    orderType.FieldByName "Street" = .ok none ∧
    getErrorMessage orderStreetFailure emptyOrder = .ok "Unknown field" ∧
    Validate requiredEngine emptyOrder = .ok (["Unknown field"], none) :=
  ⟨by decide, rfl, rfl, rfl, rfl, rfl, rfl⟩

/-- C10 fails on the code: `Bogus{}` is a struct whose field carries the tag
`validate:"bogus"`; the call of the engine panics on the undefined rule,
`Validate` has no `recover`, and no pair is returned. -/
theorem Validate_engine_panic_unrecovered :
    (ValueOf emptyBogus).Kind = Kind.Struct ∧
    requiredEngine emptyBogus =
      .error (.engine "Undefined validation function 'bogus' on field 'Name'") ∧
    Validate requiredEngine emptyBogus =
      .error (.engine "Undefined validation function 'bogus' on field 'Name'") ∧
    ¬ ∃ r, Validate requiredEngine emptyBogus = .ok r :=
  ⟨by decide, rfl, rfl, fun ⟨_, hr⟩ => nomatch hr⟩

end Rvalidator
